import Mathlib

/-!
Shallow embedding of the striped-background utility generator from
`plugins/bg-stripes.js`: the `withOpacity` color rewriter, the
table-driven utility generation pass (the plugin callback iterating
`theme(colors)` with `addColor`), and the on-demand `matchUtilities`
handler. JavaScript strings are modelled as `String`/`List Char`,
dynamic values as `JSValue`, and the `utilities` object as an
insertion-ordered association list.
-/

namespace BgStripes

/-- Dynamic JavaScript values the plugin can encounter in a theme color
table or as an arbitrary utility value. -/
inductive JSValue where
  | str (s : String)
  | num (n : Int)
  | boolean (b : Bool)
  | null
  | undefined
  | obj (entries : List (String × JSValue))

/-- JavaScript truthiness of a `JSValue`. -/
def truthy : JSValue → Bool
  | .str s => !s.data.isEmpty
  | .num n => n != 0
  | .boolean b => b
  | .null => false
  | .undefined => false
  | .obj _ => true

/-- Whether `typeof v === string`. -/
def isStr : JSValue → Bool
  | .str _ => true
  | _ => false

/-- `pat` is a prefix of the first argument (JS `String.startsWith`). -/
def listStartsWith (s pat : List Char) : Bool :=
  match pat with
  | [] => true
  | p :: ps =>
    match s.head? with
    | none => false
    | some c => c == p && listStartsWith s.tail ps

/-- JS `String.prototype.replace` with a plain string pattern: replace
the first occurrence of `pat` with `repl`; leave the string unchanged
when `pat` does not occur. -/
def replFirst (pat repl : List Char) : List Char → List Char
  | [] => if listStartsWith [] pat then repl else []
  | c :: cs =>
    if listStartsWith (c :: cs) pat then repl ++ (c :: cs).drop pat.length
    else c :: replFirst pat repl cs

/-- Character class of the regex `[\d.]`. -/
def isDigitDot (c : Char) : Bool := c.isDigit || c == '.'

/-- JS `s.replace(/[\d.]+\)$/, repl ++ ")")`: when the string ends with a
non-empty run of digits/dots followed by `)`, replace that run and the
final `)`; otherwise the string is unchanged (the regex is end-anchored). -/
def rgbaAlphaReplace (cs : List Char) (repl : List Char) : List Char :=
  let r := cs.reverse
  if r.head? == some ')' then
    if (r.tail.takeWhile isDigitDot).isEmpty then cs
    else (r.tail.dropWhile isDigitDot).reverse ++ repl ++ [')']
  else cs

/-- Decimal rendering of the JS template expression `opacity / 100` for an
integer opacity: 50 renders as "0.5", 10 as "0.1", 100 as "1", 7 as "0.07". -/
def formatDiv100 (n : Nat) : String :=
  let ip := toString (n / 100)
  let fp := n % 100
  if fp == 0 then ip
  else if fp % 10 == 0 then ip ++ "." ++ toString (fp / 10)
  else if fp < 10 then ip ++ ".0" ++ toString fp
  else ip ++ "." ++ toString fp

/-- JS `String.prototype.split(" ")` on a character list. -/
def splitSp : List Char → List (List Char)
  | [] => [[]]
  | c :: cs =>
    if c == ' ' then [] :: splitSp cs
    else
      match splitSp cs with
      | [] => [[c]]
      | g :: gs => (c :: g) :: gs

/-- Indexing `values[i]` inside a JS template literal: an out-of-range
index interpolates as the string "undefined". -/
def getOrUndef (l : List (List Char)) (i : Nat) : List Char :=
  match l.get? i with
  | some v => v
  | none => "undefined".data

/-- The string branches of `withOpacity`, on the character list of the
input color string. -/
def withOpacityL (cs : List Char) (opacity : Nat) : List Char :=
  if listStartsWith cs "oklch(".data then
    let values := splitSp ((cs.drop 6).dropLast)
    "oklch(".data ++ getOrUndef values 0 ++ [' '] ++ getOrUndef values 1 ++ [' ']
      ++ getOrUndef values 2 ++ " / ".data ++ (formatDiv100 opacity).data ++ [')']
  else if listStartsWith cs "#".data then
    cs ++ " / ".data ++ (toString opacity).data ++ ['%']
  else if listStartsWith cs "rgb(".data then
    replFirst ")".data (", ".data ++ (formatDiv100 opacity).data ++ [')'])
      (replFirst "rgb(".data "rgba(".data cs)
  else if listStartsWith cs "rgba(".data then
    rgbaAlphaReplace cs (formatDiv100 opacity).data
  else
    "currentColor / ".data ++ (toString opacity).data ++ ['%']

/-- `withOpacity(color, opacity)` from `plugins/bg-stripes.js`. -/
def withOpacity (color : JSValue) (opacity : Nat) : String :=
  match color with
  | .str s => String.mk (withOpacityL s.data opacity)
  | _ => "currentColor / " ++ toString opacity ++ "%"

/-- The four `GeneratorConfig` fields merged over `defaultStyles`. -/
structure GeneratorConfig where
  size : String
  angle : String
  opacity : Nat
  bgOpacity : Nat
deriving DecidableEq

/-- `defaultStyles` from the plugin source. -/
def defaultStyles : GeneratorConfig := ⟨"7.07px", "135deg", 50, 10⟩

/-- The three-field CSS declaration record emitted per utility. -/
structure Decl where
  backgroundColor : String
  backgroundImage : String
  backgroundSize : String
deriving DecidableEq

/-- The `utilities` object: class-selector key to declaration record, in
insertion order. -/
abbrev UtilityMap := List (String × Decl)

/-- JS object assignment `utilities[key] = d`: overwrite an existing key
in place, otherwise append. -/
def insertUtil (m : UtilityMap) (k : String) (d : Decl) : UtilityMap :=
  if m.any (fun p => p.1 == k) then
    m.map (fun p => if p.1 == k then (k, d) else p)
  else m ++ [(k, d)]

/-- The fixed linear-gradient template of the plugin. -/
def bgImage (config : GeneratorConfig) (stripe : String) : String :=
  "linear-gradient(" ++ config.angle ++ ", " ++ stripe
    ++ " 10%, transparent 0, transparent 50%, " ++ stripe ++ " 0, " ++ stripe
    ++ " 60%, transparent 0, transparent)"

/-- The `backgroundSize` value. -/
def bgSize (config : GeneratorConfig) : String := config.size ++ " " ++ config.size

/-- `addColor(name, color, prevColor)` from the plugin callback: skip
non-strings and empty strings, otherwise emit the three-field record
under the key `.bg-stripes-` followed by the name. -/
def addColor (config : GeneratorConfig) (utils : UtilityMap) (name : String)
    (color : JSValue) (prevColor : Option JSValue) : UtilityMap :=
  match color with
  | .str s =>
    if s.data.isEmpty then utils
    else
      let stripeColor := withOpacity (.str s) config.opacity
      let bgColor :=
        match prevColor with
        | some pc =>
          if truthy pc then withOpacity pc config.bgOpacity
          else withOpacity (.str s) config.bgOpacity
        | none => withOpacity (.str s) config.bgOpacity
      insertUtil utils (".bg-stripes-" ++ name)
        ⟨bgColor, bgImage config stripeColor, bgSize config⟩
  | _ => utils

/-- The class-name key for one shade of a family: the bare family name
for the DEFAULT shade, otherwise name-shade. -/
def colorKey (name shade : String) : String :=
  if shade == "DEFAULT" then name else name ++ "-" ++ shade

/-- The inner scale loop of the plugin callback, threading
`previousColor`; a shade whose color is falsy or not a string is skipped
without advancing `previousColor`. -/
def processScale (config : GeneratorConfig) (name : String) :
    UtilityMap → Option JSValue → List (String × JSValue) → UtilityMap
  | utils, _, [] => utils
  | utils, prev, (shade, color) :: rest =>
    if truthy color && isStr color then
      processScale config name
        (addColor config utils (colorKey name shade) color prev) (some color) rest
    else
      processScale config name utils prev rest

/-- One iteration of the theme-color loop: falsy family values are
skipped, a string value emits one utility, an object value runs the
scale loop, anything else contributes nothing. -/
def processEntry (config : GeneratorConfig) (utils : UtilityMap)
    (nv : String × JSValue) : UtilityMap :=
  if !truthy nv.2 then utils
  else
    match nv.2 with
    | .str _ => addColor config utils nv.1 nv.2 none
    | .obj entries => processScale config nv.1 utils none entries
    | _ => utils

/-- The table-driven generation pass over `theme(colors)`. -/
def generateFromTable (table : List (String × JSValue))
    (config : GeneratorConfig) : UtilityMap :=
  table.foldl (processEntry config) []

/-- The `matchUtilities` handler for `bg-stripes-[value]`; `none` models
the empty declaration record returned for falsy or non-string values. -/
def generateForValue (config : GeneratorConfig) (value : JSValue) : Option Decl :=
  match value with
  | .str s =>
    if s.data.isEmpty then none
    else some ⟨withOpacity (.str s) config.bgOpacity,
               bgImage config (withOpacity (.str s) config.opacity),
               bgSize config⟩
  | _ => none

/-- Whether a string starts with one of the four color formats recognized
by `withOpacity`. -/
def recognizedFormat (s : String) : Bool :=
  listStartsWith s.data "oklch(".data || listStartsWith s.data "#".data
    || listStartsWith s.data "rgb(".data || listStartsWith s.data "rgba(".data

/-- Whether `needle` occurs as a contiguous substring of `hay`. -/
def containsSub (hay needle : List Char) : Bool :=
  match hay with
  | [] => listStartsWith [] needle
  | c :: rest => listStartsWith (c :: rest) needle || containsSub rest needle

end BgStripes

namespace BgStripes

/-! Helper lemmas about the embedded string operations. -/

theorem data_append (s t : String) : (s ++ t).data = s.data ++ t.data := rfl

theorem lsw_nil_pat (s : List Char) : listStartsWith s [] = true := rfl

theorem lsw_self_append (p rest : List Char) :
    listStartsWith (p ++ rest) p = true := by
  induction p with
  | nil => exact lsw_nil_pat rest
  | cons c cs ih => simp [listStartsWith, ih]

theorem replFirst_of_startsWith (pat repl s : List Char)
    (h : listStartsWith s pat = true) :
    replFirst pat repl s = repl ++ s.drop pat.length := by
  cases s with
  | nil =>
    cases pat with
    | nil => simp [replFirst, h]
    | cons p ps => simp [listStartsWith] at h
  | cons c cs => simp [replFirst, h]

theorem replFirst_single_not_mem (c : Char) (repl : List Char) (xs ys : List Char)
    (h : c ∉ xs) :
    replFirst [c] repl (xs ++ ys) = xs ++ replFirst [c] repl ys := by
  induction xs with
  | nil => simp
  | cons x xt ih =>
    have hx : (x == c) = false := by
      refine beq_eq_false_iff_ne.mpr ?_
      intro e
      exact h (by simp [e])
    have hm : c ∉ xt := fun m => h (List.mem_cons_of_mem _ m)
    simp [replFirst, listStartsWith, hx, ih hm]

end BgStripes

namespace BgStripes

theorem data_comma : ",".data = [','] := rfl

theorem data_rparen : ")".data = [')'] := rfl

theorem data_commaSpace : ", ".data = [',', ' '] := rfl

theorem replFirst_pre (pat repl rest : List Char) :
    replFirst pat repl (pat ++ rest) = repl ++ rest := by
  rw [replFirst_of_startsWith _ _ _ (lsw_self_append pat rest), List.drop_left]

theorem replFirst_close (repl xs : List Char) (h : ')' ∉ xs) :
    replFirst ")".data repl (xs ++ [')']) = xs ++ repl := by
  show replFirst [')'] repl (xs ++ [')']) = xs ++ repl
  rw [replFirst_single_not_mem ')' repl xs [')'] h]
  simp [replFirst, listStartsWith]

theorem withOpacityL_rgb (r g b : List Char) (p : Nat)
    (hr : ')' ∉ r) (hg : ')' ∉ g) (hb : ')' ∉ b) :
    withOpacityL ("rgb(".data ++ (r ++ [','] ++ g ++ [','] ++ b ++ [')'])) p
      = "rgba(".data ++ r ++ [','] ++ g ++ [','] ++ b ++ ", ".data
        ++ (formatDiv100 p).data ++ [')'] := by
  have h1 : listStartsWith ("rgb(".data ++ (r ++ [','] ++ g ++ [','] ++ b ++ [')'])) "oklch(".data = false := rfl
  have h2 : listStartsWith ("rgb(".data ++ (r ++ [','] ++ g ++ [','] ++ b ++ [')'])) "#".data = false := rfl
  have h3 : listStartsWith ("rgb(".data ++ (r ++ [','] ++ g ++ [','] ++ b ++ [')'])) "rgb(".data = true :=
    lsw_self_append _ _
  have hx : ')' ∉ "rgba(".data ++ (r ++ [','] ++ g ++ [','] ++ b) := by
    intro hmem
    simp only [List.mem_append, or_assoc] at hmem
    rcases hmem with h1 | h2 | h3 | h4 | h5 | h6
    · exact absurd h1 (by decide)
    · exact hr h2
    · exact absurd h3 (by decide)
    · exact hg h4
    · exact absurd h5 (by decide)
    · exact hb h6
  have e1 : replFirst "rgb(".data "rgba(".data
        ("rgb(".data ++ (r ++ [','] ++ g ++ [','] ++ b ++ [')']))
      = "rgba(".data ++ (r ++ [','] ++ g ++ [','] ++ b ++ [')']) := replFirst_pre _ _ _
  have e2 : "rgba(".data ++ (r ++ [','] ++ g ++ [','] ++ b ++ [')'])
      = ("rgba(".data ++ (r ++ [','] ++ g ++ [','] ++ b)) ++ [')'] := by
    simp [List.append_assoc]
  have e3 : replFirst ")".data (", ".data ++ (formatDiv100 p).data ++ [')'])
        (("rgba(".data ++ (r ++ [','] ++ g ++ [','] ++ b)) ++ [')'])
      = ("rgba(".data ++ (r ++ [','] ++ g ++ [','] ++ b))
        ++ (", ".data ++ (formatDiv100 p).data ++ [')']) := replFirst_close _ _ hx
  simp only [withOpacityL, h1, h2, h3, Bool.false_eq_true, if_false, if_true]
  rw [e1, e2, e3]
  simp [List.append_assoc]

end BgStripes

namespace BgStripes

theorem data_singleton (c : Char) : (String.singleton c).data = [c] := rfl

theorem data_percent : "%".data = ['%'] := rfl

/-- C10: an rgba( input whose final right parenthesis is not immediately
preceded by a digit or decimal point is returned completely unchanged by
withOpacity: the end-anchored alpha regex fails to match, the requested
opacity is silently ignored, and the currentColor fallback is not taken. -/
theorem c10_rgba_unmatched_alpha_unchanged (mid : String) (c : Char) (p : Nat)
    (hc : isDigitDot c = false) :
    withOpacity (.str ("rgba(" ++ mid ++ String.singleton c ++ ")")) p
      = "rgba(" ++ mid ++ String.singleton c ++ ")" := by
  refine String.ext ?_
  show withOpacityL ("rgba(" ++ mid ++ String.singleton c ++ ")").data p
      = ("rgba(" ++ mid ++ String.singleton c ++ ")").data
  have h1 : listStartsWith ("rgba(" ++ mid ++ String.singleton c ++ ")").data "oklch(".data = false := rfl
  have h2 : listStartsWith ("rgba(" ++ mid ++ String.singleton c ++ ")").data "#".data = false := rfl
  have h3 : listStartsWith ("rgba(" ++ mid ++ String.singleton c ++ ")").data "rgb(".data = false := rfl
  have h4 : listStartsWith ("rgba(" ++ mid ++ String.singleton c ++ ")").data "rgba(".data = true := rfl
  simp only [withOpacityL, h1, h2, h3, h4, Bool.false_eq_true, if_false, if_true]
  simp only [data_append, data_singleton, data_rparen]
  simp [rgbaAlphaReplace, List.reverse_append, hc, List.takeWhile_cons]

/-- C10 witness: the alpha-percent input rgba(0,0,0,50%) is returned
unchanged at opacity 50. -/
theorem c10_rgba_unmatched_alpha_unchanged_witness :
    withOpacity (.str ("rgba(" ++ "0,0,0,50" ++ String.singleton '%' ++ ")")) 50
      = "rgba(" ++ "0,0,0,50" ++ String.singleton '%' ++ ")" :=
  c10_rgba_unmatched_alpha_unchanged "0,0,0,50" '%' 50 (by decide)

/-- C5: withOpacity on any non-string value, and on any string starting
with none of the four recognized prefixes, returns exactly the string
"currentColor / p%"; the function is total, so every input yields a
string (the JS function never throws). -/
theorem c5_unrecognized_fallback (v : JSValue) (p : Nat)
    (h : ∀ s, v = JSValue.str s → recognizedFormat s = false) :
    withOpacity v p = "currentColor / " ++ toString p ++ "%" := by
  cases v with
  | str s =>
    have hs := h s rfl
    simp only [recognizedFormat, Bool.or_eq_false_iff] at hs
    obtain ⟨⟨⟨h1, h2⟩, h3⟩, h4⟩ := hs
    refine String.ext ?_
    simp [withOpacity, withOpacityL, h1, h2, h3, h4, data_append, data_percent]
  | num n => rfl
  | boolean b => rfl
  | null => rfl
  | undefined => rfl
  | obj entries => rfl

/-- C5 witness: the fallback at the unrecognized string "notacolor" with
opacity 42, and at the non-string null with opacity 7. -/
theorem c5_unrecognized_fallback_witness :
    withOpacity (.str "notacolor") 42 = "currentColor / " ++ toString 42 ++ "%" ∧
    withOpacity JSValue.null 7 = "currentColor / " ++ toString 7 ++ "%" := by
  constructor
  · exact c5_unrecognized_fallback (.str "notacolor") 42
      (by intro s hs; injection hs with h'; subst h'; decide)
  · exact c5_unrecognized_fallback JSValue.null 7 (by intro s hs; cases hs)

/-- C8: the bg-stripes matchUtilities handler returns the empty
declaration record for the empty string and for every non-string value,
and returns the full three-field declaration record for every non-empty
string. -/
theorem c8_on_demand_guard (config : GeneratorConfig) :
    generateForValue config (.str "") = none ∧
    (∀ v : JSValue, isStr v = false → generateForValue config v = none) ∧
    (∀ s : String, s ≠ "" → ∃ d : Decl, generateForValue config (.str s) = some d) := by
  refine ⟨rfl, ?_, ?_⟩
  · intro v hv
    cases v with
    | str s => simp [isStr] at hv
    | num n => rfl
    | boolean b => rfl
    | null => rfl
    | undefined => rfl
    | obj entries => rfl
  · intro s hs
    have he : s.data.isEmpty = false := by
      cases s with
      | mk data =>
        cases data with
        | nil => exact absurd rfl hs
        | cons c cs => rfl
    exact ⟨⟨withOpacity (.str s) config.bgOpacity,
            bgImage config (withOpacity (.str s) config.opacity), bgSize config⟩,
      by simp [generateForValue, he]⟩

/-- C8 witness: the handler at the empty string, at null, and at the
non-empty string with value sign hash-ff0000, under the default config. -/
theorem c8_on_demand_guard_witness :
    generateForValue defaultStyles (.str "") = none ∧
    generateForValue defaultStyles JSValue.null = none ∧
    ∃ d : Decl, generateForValue defaultStyles (.str "#ff0000") = some d :=
  ⟨(c8_on_demand_guard defaultStyles).1,
   (c8_on_demand_guard defaultStyles).2.1 JSValue.null rfl,
   (c8_on_demand_guard defaultStyles).2.2 "#ff0000" (by decide)⟩

end BgStripes

namespace BgStripes

theorem data_space : " ".data = [' '] := rfl

theorem data_slashSep : " / ".data = [' ', '/', ' '] := rfl

theorem takeWhile_append_not (p : Char → Bool) (xs : List Char) (y : Char) (ys : List Char)
    (hx : ∀ x ∈ xs, p x = true) (hy : p y = false) :
    (xs ++ y :: ys).takeWhile p = xs := by
  induction xs with
  | nil => simp [List.takeWhile_cons, hy]
  | cons a t ih =>
    have ha : p a = true := hx a (List.mem_cons_self a t)
    have ht : ∀ x ∈ t, p x = true := fun x hxm => hx x (List.mem_cons_of_mem a hxm)
    simp [List.takeWhile_cons, ha, ih ht]

theorem dropWhile_append_not (p : Char → Bool) (xs : List Char) (y : Char) (ys : List Char)
    (hx : ∀ x ∈ xs, p x = true) (hy : p y = false) :
    (xs ++ y :: ys).dropWhile p = y :: ys := by
  induction xs with
  | nil => simp [List.dropWhile_cons, hy]
  | cons a t ih =>
    have ha : p a = true := hx a (List.mem_cons_self a t)
    have ht : ∀ x ∈ t, p x = true := fun x hxm => hx x (List.mem_cons_of_mem a hxm)
    simp [List.dropWhile_cons, ha, ih ht]

theorem rgbaAlphaReplace_run (ys : List Char) (y : Char) (a repl : List Char)
    (hy : isDigitDot y = false) (ha : a ≠ []) (hall : ∀ x ∈ a, isDigitDot x = true) :
    rgbaAlphaReplace (ys ++ (y :: (a ++ [')']))) repl = ys ++ (y :: (repl ++ [')'])) := by
  have hrev : (ys ++ (y :: (a ++ [')']))).reverse = ')' :: (a.reverse ++ (y :: ys.reverse)) := by
    simp [List.reverse_append, List.append_assoc]
  have htake : (a.reverse ++ (y :: ys.reverse)).takeWhile isDigitDot = a.reverse :=
    takeWhile_append_not _ _ _ _ (fun x hxm => hall x (List.mem_reverse.mp hxm)) hy
  have hdrop : (a.reverse ++ (y :: ys.reverse)).dropWhile isDigitDot = y :: ys.reverse :=
    dropWhile_append_not _ _ _ _ (fun x hxm => hall x (List.mem_reverse.mp hxm)) hy
  have hne : a.reverse.isEmpty = false := by
    cases hr : a.reverse with
    | nil => exact absurd (List.reverse_eq_nil_iff.mp hr) ha
    | cons x t => rfl
  simp only [rgbaAlphaReplace, hrev, List.head?_cons, List.tail_cons, htake, hdrop, hne,
    beq_self_eq_true, if_true]
  simp [List.append_assoc]

theorem withOpacityL_rgba (pre a : List Char) (p : Nat)
    (ha : a ≠ []) (hall : ∀ x ∈ a, isDigitDot x = true) :
    withOpacityL ("rgba(".data ++ pre ++ [','] ++ a ++ [')']) p
      = "rgba(".data ++ pre ++ [','] ++ (formatDiv100 p).data ++ [')'] := by
  have h1 : listStartsWith ("rgba(".data ++ pre ++ [','] ++ a ++ [')']) "oklch(".data = false := rfl
  have h2 : listStartsWith ("rgba(".data ++ pre ++ [','] ++ a ++ [')']) "#".data = false := rfl
  have h3 : listStartsWith ("rgba(".data ++ pre ++ [','] ++ a ++ [')']) "rgb(".data = false := rfl
  have h4 : listStartsWith ("rgba(".data ++ pre ++ [','] ++ a ++ [')']) "rgba(".data = true := rfl
  simp only [withOpacityL, h1, h2, h3, h4, Bool.false_eq_true, if_false, if_true]
  have hshape : "rgba(".data ++ pre ++ [','] ++ a ++ [')']
      = ("rgba(".data ++ pre) ++ (',' :: (a ++ [')'])) := by
    simp [List.append_assoc]
  rw [hshape, rgbaAlphaReplace_run ("rgba(".data ++ pre) ',' a _ (by decide) ha hall]
  simp [List.append_assoc]

theorem splitSp_no_space (xs : List Char) (h : ' ' ∉ xs) : splitSp xs = [xs] := by
  induction xs with
  | nil => rfl
  | cons c t ih =>
    have hc : (c == ' ') = false := by
      refine beq_eq_false_iff_ne.mpr ?_
      intro e
      exact h (by simp [e])
    have ht : ' ' ∉ t := fun m => h (List.mem_cons_of_mem _ m)
    simp [splitSp, hc, ih ht]

theorem splitSp_space_append (xs ys : List Char) (h : ' ' ∉ xs) :
    splitSp (xs ++ ' ' :: ys) = xs :: splitSp ys := by
  induction xs with
  | nil => simp [splitSp]
  | cons c t ih =>
    have hc : (c == ' ') = false := by
      refine beq_eq_false_iff_ne.mpr ?_
      intro e
      exact h (by simp [e])
    have ht : ' ' ∉ t := fun m => h (List.mem_cons_of_mem _ m)
    simp [splitSp, hc, ih ht]

theorem withOpacityL_oklch (L C H : List Char) (p : Nat)
    (hL : ' ' ∉ L) (hC : ' ' ∉ C) (hH : ' ' ∉ H) :
    withOpacityL ("oklch(".data ++ L ++ [' '] ++ C ++ [' '] ++ H ++ [')']) p
      = "oklch(".data ++ L ++ [' '] ++ C ++ [' '] ++ H ++ " / ".data
        ++ (formatDiv100 p).data ++ [')'] := by
  have h1 : listStartsWith ("oklch(".data ++ L ++ [' '] ++ C ++ [' '] ++ H ++ [')'])
      "oklch(".data = true := rfl
  have hdrop : ("oklch(".data ++ L ++ [' '] ++ C ++ [' '] ++ H ++ [')']).drop 6
      = L ++ [' '] ++ C ++ [' '] ++ H ++ [')'] := rfl
  have hlast : (L ++ [' '] ++ C ++ [' '] ++ H ++ [')']).dropLast
      = L ++ [' '] ++ C ++ [' '] ++ H := List.dropLast_concat
  have hsplit : splitSp (L ++ [' '] ++ C ++ [' '] ++ H) = [L, C, H] := by
    have hshape : L ++ [' '] ++ C ++ [' '] ++ H = L ++ ' ' :: (C ++ ' ' :: H) := by
      simp [List.append_assoc]
    rw [hshape, splitSp_space_append L _ hL, splitSp_space_append C _ hC,
      splitSp_no_space H hH]
  simp only [withOpacityL, h1, if_true, hdrop, hlast, hsplit]
  simp [getOrUndef, List.append_assoc]

end BgStripes

namespace BgStripes

theorem data_mk (l : List Char) : (String.mk l).data = l := rfl

theorem withOpacity_str (s : String) (p : Nat) :
    withOpacity (.str s) p = String.mk (withOpacityL s.data p) := rfl

/-- C3: for every rgba(r,g,b,a) input whose alpha component a is a
non-empty trailing run of digits/decimal points immediately before the
final right parenthesis, withOpacity replaces only that alpha numeral
with p/100, preserving the r, g, b components and every other
character. -/
theorem c3_rgba_alpha_only_replaced (r g b a : String) (p : Nat)
    (ha : a.data ≠ []) (hall : ∀ x ∈ a.data, isDigitDot x = true) :
    withOpacity (.str ("rgba(" ++ r ++ "," ++ g ++ "," ++ b ++ "," ++ a ++ ")")) p
      = "rgba(" ++ r ++ "," ++ g ++ "," ++ b ++ "," ++ formatDiv100 p ++ ")" := by
  rw [withOpacity_str]
  refine String.ext ?_
  rw [data_mk]
  have e := withOpacityL_rgba (r.data ++ [','] ++ g.data ++ [','] ++ b.data) a.data p ha hall
  simp only [data_append, data_comma, data_rparen, List.append_assoc,
    List.cons_append, List.singleton_append] at e ⊢
  exact e

/-- C3 witness: rgba(0,0,0,0.8) at opacity 50 becomes rgba(0,0,0,0.5). -/
theorem c3_rgba_alpha_only_replaced_witness :
    withOpacity (.str ("rgba(" ++ "0" ++ "," ++ "0" ++ "," ++ "0" ++ "," ++ "0.8" ++ ")")) 50
      = "rgba(" ++ "0" ++ "," ++ "0" ++ "," ++ "0" ++ "," ++ formatDiv100 50 ++ ")" :=
  c3_rgba_alpha_only_replaced "0" "0" "0" "0.8" 50 (by decide) (by decide)

/-- C4: for every oklch( input whose body is three space-separated
components L, C and H, withOpacity strips the prefix and the trailing
right parenthesis, splits on spaces, and reassembles exactly
oklch(L C H / p/100), passing the components through verbatim with no
numeric validation. -/
theorem c4_oklch_three_components (L C H : String) (p : Nat)
    (hL : ' ' ∉ L.data) (hC : ' ' ∉ C.data) (hH : ' ' ∉ H.data) :
    withOpacity (.str ("oklch(" ++ L ++ " " ++ C ++ " " ++ H ++ ")")) p
      = "oklch(" ++ L ++ " " ++ C ++ " " ++ H ++ " / " ++ formatDiv100 p ++ ")" := by
  rw [withOpacity_str]
  refine String.ext ?_
  rw [data_mk]
  have e := withOpacityL_oklch L.data C.data H.data p hL hC hH
  simp only [data_append, data_space, data_slashSep, data_rparen, List.append_assoc,
    List.cons_append, List.singleton_append] at e ⊢
  exact e

/-- C4 witness: oklch(0.7 0.15 150deg) at opacity 50, including a
non-numeric component to show there is no numeric validation. -/
theorem c4_oklch_three_components_witness :
    withOpacity (.str ("oklch(" ++ "0.7" ++ " " ++ "0.15" ++ " " ++ "150deg" ++ ")")) 50
      = "oklch(" ++ "0.7" ++ " " ++ "0.15" ++ " " ++ "150deg" ++ " / " ++ formatDiv100 50 ++ ")" :=
  c4_oklch_three_components "0.7" "0.15" "150deg" 50 (by decide) (by decide) (by decide)

end BgStripes

namespace BgStripes

/-- C6: the DEFAULT shade maps to the bare family name with no suffix —
colorKey name DEFAULT is name for every family name — and on the gray
scale with a DEFAULT and a 100 shade the pass emits exactly
.bg-stripes-gray and .bg-stripes-gray-100, no key containing
gray-DEFAULT. -/
theorem c6_default_shade_bare_key :
    (∀ name : String, colorKey name "DEFAULT" = name) ∧
    (generateFromTable
        [("gray", .obj [("DEFAULT", .str "#000000"), ("100", .str "#111111")])]
        defaultStyles).map Prod.fst
      = [".bg-stripes-gray", ".bg-stripes-gray-100"] ∧
    ((generateFromTable
        [("gray", .obj [("DEFAULT", .str "#000000"), ("100", .str "#111111")])]
        defaultStyles).map Prod.fst).all
      (fun k => !containsSub k.data "gray-DEFAULT".data) = true := by
  refine ⟨fun name => by simp [colorKey], by decide, by decide⟩

/-- C7: a table entry whose value is null, undefined or a number
contributes zero entries to the utility map and leaves the processing of
every other family unchanged: the pass over the table with the entry
equals the pass over the table without it. -/
theorem c7_malformed_entry_dropped (pre post : List (String × JSValue)) (name : String)
    (v : JSValue) (config : GeneratorConfig)
    (hv : v = JSValue.null ∨ v = JSValue.undefined ∨ ∃ n : Int, v = JSValue.num n) :
    generateFromTable (pre ++ (name, v) :: post) config
      = generateFromTable (pre ++ post) config := by
  have hstep : ∀ u : UtilityMap, processEntry config u (name, v) = u := by
    intro u
    rcases hv with h | h | ⟨n, h⟩ <;> subst h
    · rfl
    · rfl
    · cases hb : truthy (JSValue.num n) <;> simp [processEntry, hb]
  unfold generateFromTable
  rw [List.foldl_append, List.foldl_cons, hstep, ← List.foldl_append]

/-- C7 witness: a null-valued entry between two families drops out of the
pass. -/
theorem c7_malformed_entry_dropped_witness :
    generateFromTable
        ([("red", JSValue.str "#ff0000")] ++ ("bad", JSValue.null) :: [("blue", JSValue.str "#00f")])
        defaultStyles
      = generateFromTable ([("red", JSValue.str "#ff0000")] ++ [("blue", JSValue.str "#00f")])
        defaultStyles :=
  c7_malformed_entry_dropped _ _ "bad" JSValue.null defaultStyles (Or.inl rfl)

theorem keys_insertUtil (m : UtilityMap) (k : String) (d : Decl) (x : String)
    (hx : x ∈ (insertUtil m k d).map Prod.fst) : x ∈ m.map Prod.fst ∨ x = k := by
  unfold insertUtil at hx
  split at hx
  case isTrue =>
    simp only [List.map_map, List.mem_map, Function.comp] at hx
    obtain ⟨q, hq, hxq⟩ := hx
    by_cases hqk : (q.1 == k) = true
    · right
      rw [← hxq]
      simp [hqk]
    · left
      simp only [List.mem_map]
      refine ⟨q, hq, ?_⟩
      rw [← hxq]
      simp [Bool.not_eq_true] at hqk
      simp [hqk]
  case isFalse =>
    simp only [List.map_append, List.mem_append, List.map_cons, List.map_nil,
      List.mem_singleton] at hx
    rcases hx with h | h
    · exact Or.inl h
    · exact Or.inr h

theorem keys_addColor (config : GeneratorConfig) (m : UtilityMap) (name : String)
    (color : JSValue) (prev : Option JSValue) (x : String)
    (hx : x ∈ (addColor config m name color prev).map Prod.fst) :
    x ∈ m.map Prod.fst ∨ x = ".bg-stripes-" ++ name := by
  cases color with
  | str s =>
    by_cases he : s.data.isEmpty = true
    · simp only [addColor, he, if_true] at hx
      exact Or.inl hx
    · simp only [addColor, he, Bool.not_eq_true, Bool.false_eq_true, if_false] at hx
      exact keys_insertUtil _ _ _ _ hx
  | num n => exact Or.inl hx
  | boolean b => exact Or.inl hx
  | null => exact Or.inl hx
  | undefined => exact Or.inl hx
  | obj entries => exact Or.inl hx

theorem keys_processScale (config : GeneratorConfig) (name : String)
    (scale : List (String × JSValue)) :
    ∀ (m : UtilityMap) (prev : Option JSValue) (x : String),
      x ∈ (processScale config name m prev scale).map Prod.fst →
      x ∈ m.map Prod.fst ∨ ∃ suf, x = ".bg-stripes-" ++ suf := by
  induction scale with
  | nil => exact fun m prev x hx => Or.inl hx
  | cons e rest ih =>
    intro m prev x hx
    obtain ⟨shade, color⟩ := e
    cases hc : (truthy color && isStr color) with
    | true =>
      simp only [processScale, hc, if_true] at hx
      rcases ih _ _ x hx with h | h
      · rcases keys_addColor _ _ _ _ _ _ h with h2 | h2
        · exact Or.inl h2
        · exact Or.inr ⟨colorKey name shade, h2⟩
      · exact Or.inr h
    | false =>
      simp only [processScale, hc, Bool.false_eq_true, if_false] at hx
      exact ih _ _ x hx

theorem keys_processEntry (config : GeneratorConfig) (m : UtilityMap)
    (nv : String × JSValue) (x : String)
    (hx : x ∈ (processEntry config m nv).map Prod.fst) :
    x ∈ m.map Prod.fst ∨ ∃ suf, x = ".bg-stripes-" ++ suf := by
  obtain ⟨name, v⟩ := nv
  cases hb : truthy v with
  | false => simp only [processEntry, hb, Bool.not_false, if_true] at hx; exact Or.inl hx
  | true =>
    cases v with
    | str s =>
      simp only [processEntry, hb, Bool.not_true, Bool.false_eq_true, if_false] at hx
      rcases keys_addColor _ _ _ _ _ _ hx with h | h
      · exact Or.inl h
      · exact Or.inr ⟨name, h⟩
    | obj entries =>
      simp only [processEntry, hb, Bool.not_true, Bool.false_eq_true, if_false] at hx
      exact keys_processScale _ _ _ _ _ _ hx
    | num n =>
      simp only [processEntry, hb, Bool.not_true, Bool.false_eq_true, if_false] at hx
      exact Or.inl hx
    | boolean b =>
      simp only [processEntry, hb, Bool.not_true, Bool.false_eq_true, if_false] at hx
      exact Or.inl hx
    | null =>
      simp only [processEntry, hb, Bool.not_true, Bool.false_eq_true, if_false] at hx
      exact Or.inl hx
    | undefined =>
      simp only [processEntry, hb, Bool.not_true, Bool.false_eq_true, if_false] at hx
      exact Or.inl hx

theorem keys_foldl (config : GeneratorConfig) (table : List (String × JSValue)) :
    ∀ (m : UtilityMap) (x : String),
      x ∈ (table.foldl (processEntry config) m).map Prod.fst →
      x ∈ m.map Prod.fst ∨ ∃ suf, x = ".bg-stripes-" ++ suf := by
  induction table with
  | nil => exact fun m x hx => Or.inl hx
  | cons e rest ih =>
    intro m x hx
    rw [List.foldl_cons] at hx
    rcases ih _ x hx with h | h
    · exact keys_processEntry config m e x h
    · exact Or.inr h

/-- C9: every key of the utility map built by the table-driven pass
begins with the literal prefix .bg-stripes- including the leading dot:
each emitted key is a CSS class selector, an invariant preserved by every
emission through addColor. -/
theorem c9_selector_dot_invariant (table : List (String × JSValue))
    (config : GeneratorConfig) (k : String)
    (hk : k ∈ (generateFromTable table config).map Prod.fst) :
    ∃ suf, k = ".bg-stripes-" ++ suf := by
  rcases keys_foldl config table [] k hk with h | h
  · simp at h
  · exact h

/-- C9 witness: the key emitted for the red family carries the selector
dot. -/
theorem c9_selector_dot_invariant_witness :
    ".bg-stripes-red"
        ∈ (generateFromTable [("red", JSValue.str "#ff0000")] defaultStyles).map Prod.fst ∧
    ∃ suf, ".bg-stripes-red" = ".bg-stripes-" ++ suf :=
  ⟨by decide,
   c9_selector_dot_invariant [("red", JSValue.str "#ff0000")] defaultStyles
     ".bg-stripes-red" (by decide)⟩

end BgStripes

namespace BgStripes

/-- C1: on the table with red a direct hex color and blue a 400/500 scale,
the table-driven pass with the default config emits exactly the three
selectors .bg-stripes-red, .bg-stripes-blue-400 and .bg-stripes-blue-500
(the keys carry the CSS class-selector dot), and the blue-500 entry's
backgroundColor is the previous shade's color #60a5fa rendered at
bgOpacity, which differs from what #3b82f6 would render to. -/
theorem c1_table_pass_three_keys_prev_shade :
    (generateFromTable
        [("red", .str "#ff0000"),
         ("blue", .obj [("400", .str "#60a5fa"), ("500", .str "#3b82f6")])]
        defaultStyles).map Prod.fst
      = [".bg-stripes-red", ".bg-stripes-blue-400", ".bg-stripes-blue-500"] ∧
    ((generateFromTable
        [("red", .str "#ff0000"),
         ("blue", .obj [("400", .str "#60a5fa"), ("500", .str "#3b82f6")])]
        defaultStyles).lookup ".bg-stripes-blue-500").map Decl.backgroundColor
      = some (withOpacity (.str "#60a5fa") defaultStyles.bgOpacity) ∧
    withOpacity (.str "#60a5fa") defaultStyles.bgOpacity = "#60a5fa / 10%" ∧
    ((generateFromTable
        [("red", .str "#ff0000"),
         ("blue", .obj [("400", .str "#60a5fa"), ("500", .str "#3b82f6")])]
        defaultStyles).lookup ".bg-stripes-blue-500").map Decl.backgroundColor
      ≠ some (withOpacity (.str "#3b82f6") defaultStyles.bgOpacity) := by
  decide

/-- C2 counterexample: withOpacity on an rgb( input replaces the FIRST
right parenthesis of the string (JS String.replace semantics), not the
trailing one; on "rgb(a)b)" at opacity 50 the code yields
"rgba(a, 0.5)b)" and not the claimed "rgba(a)b, 0.5)". -/
theorem c2_first_paren_counterexample :
    withOpacity (.str "rgb(a)b)") 50 = "rgba(a, 0.5)b)" ∧
    ¬ withOpacity (.str "rgb(a)b)") 50 = "rgba(a)b, 0.5)" := by
  decide

/-- C2 amended: for every rgb(r,g,b) input whose components contain no
right parenthesis, withOpacity rewrites the rgb( prefix to rgba( and
replaces the first (hence the trailing) right parenthesis with the
opacity suffix, yielding exactly rgba(r,g,b, p/100) with no other
characters altered. -/
theorem c2_rgb_rewrite (r g b : String) (p : Nat)
    (hr : ')' ∉ r.data) (hg : ')' ∉ g.data) (hb : ')' ∉ b.data) :
    withOpacity (.str ("rgb(" ++ r ++ "," ++ g ++ "," ++ b ++ ")")) p
      = "rgba(" ++ r ++ "," ++ g ++ "," ++ b ++ ", " ++ formatDiv100 p ++ ")" := by
  rw [withOpacity_str]
  refine String.ext ?_
  rw [data_mk]
  have e := withOpacityL_rgb r.data g.data b.data p hr hg hb
  simp only [data_append, data_comma, data_rparen, data_commaSpace,
    List.append_assoc, List.cons_append, List.singleton_append] at e ⊢
  exact e

/-- C2 witness: the amended rgb rewrite at the concrete input
rgb(255,0,0) with opacity 50. -/
theorem c2_rgb_rewrite_witness :
    withOpacity (.str ("rgb(" ++ "255" ++ "," ++ "0" ++ "," ++ "0" ++ ")")) 50
      = "rgba(" ++ "255" ++ "," ++ "0" ++ "," ++ "0" ++ ", " ++ formatDiv100 50 ++ ")" :=
  c2_rgb_rewrite "255" "0" "0" 50 (by decide) (by decide) (by decide)

end BgStripes
